import Mathlib

/-!
Shallow embedding of the Inngest SDK comm-handler core
(`src/components/InngestCommHandler.ts`, `src/helpers/errors.ts`,
`src/deno/fresh.ts`) and proofs about its dispatch, step-invocation,
registration-hash, signing-key and error-serialization behaviour.

JavaScript values that flow through `JSON.stringify` are modelled by the
`JVal` type; JavaScript exceptions by `JSError`; `Record<string, ...>`
objects by association lists with first-match lookup (real JS objects
never hold duplicate keys).
-/

namespace Inngest

/-- A JSON-serialisable JavaScript value. -/
inductive JVal where
  | null : JVal
  | jbool : Bool → JVal
  | jnum : Int → JVal
  | jstr : String → JVal
  | jarr : List JVal → JVal
  | jobj : List (String × JVal) → JVal

/-- First-match key lookup, the model of JavaScript property access on the
association lists standing in for JS objects. -/
def lookupKey (k : String) : List (String × α) → Option α
  | [] => none
  | (k', v) :: rest => if k' = k then some v else lookupKey k rest

/-- Escape one character the way `JSON.stringify` escapes string contents
(the characters that actually occur in this development). -/
def escChar (c : Char) : String :=
  if c = '"' then "\\\""
  else if c = '\\' then "\\\\"
  else if c = '\n' then "\\n"
  else if c = '\t' then "\\t"
  else if c = '\r' then "\\r"
  else String.singleton c

/-- A JSON string literal with quotes and escaping. -/
def jsonQuote (s : String) : String :=
  "\"" ++ String.join (s.toList.map escChar) ++ "\""

mutual

/-- The model of `JSON.stringify` on `JVal`. -/
def jsonStringify : JVal → String
  | .null => "null"
  | .jbool b => if b then "true" else "false"
  | .jnum n => toString n
  | .jstr s => jsonQuote s
  | .jarr xs => "[" ++ jsonArrayBody xs ++ "]"
  | .jobj fs => "\x7b" ++ jsonObjectBody fs ++ "\x7d"

/-- Comma-separated serialisation of array elements. -/
def jsonArrayBody : List JVal → String
  | [] => ""
  | [x] => jsonStringify x
  | x :: y :: rest => jsonStringify x ++ "," ++ jsonArrayBody (y :: rest)

/-- Comma-separated serialisation of object fields. -/
def jsonObjectBody : List (String × JVal) → String
  | [] => ""
  | [(k, v)] => jsonQuote k ++ ":" ++ jsonStringify v
  | (k, v) :: p :: rest =>
      jsonQuote k ++ ":" ++ jsonStringify v ++ "," ++ jsonObjectBody (p :: rest)

end

/-! ### JavaScript exceptions and the step invoker
(`InngestCommHandler.runStep`, `InngestCommHandler.ts` lines 320-365) -/

/-- A thrown JavaScript value: either an `Error` instance (with `message` and a
possibly-absent `stack`; stacks captured at runtime are environment-dependent,
so errors thrown by the handler's own code are modelled with `stack := none`,
making `err.stack || err.message` yield the message) or a non-`Error` value. -/
inductive JSError where
  | errObj : String → Option String → JSError
  | thrown : JVal → JSError

/-- JavaScript truthiness of a `string | undefined` value: `undefined` and the
empty string are falsy, every other string is truthy. -/
def strTruthy : Option String → Bool
  | none => false
  | some s => !(s = "")

/-- The error text produced by `runStep`'s catch block:
`err.stack || err.message` for an `Error` instance, else
`` `Unknown error: ${JSON.stringify(err)}` ``. -/
def jsErrorText : JSError → String
  | .errObj message stack =>
      if strTruthy stack then stack.getD "" else message
  | .thrown v => "Unknown error: " ++ jsonStringify v

/-- The `StepRunResponse` shape from `types.ts`: a status plus an optional
body (success) or error text (fault). -/
structure StepRunResponse where
  status : Nat
  body : Option JVal := none
  error : Option String := none

/-- A URL as the handler manipulates it: scheme, host, path and query
parameters (the parts `reqUrl` reads and writes). -/
structure MUrl where
  scheme : String
  host : String
  pathname : String
  query : List (String × String)
deriving DecidableEq

/-- A served Inngest function as the comm handler consumes it: the execution
engine entry point `runFn({event}, steps)` returning `[isOp, body]` or
throwing, and `getConfig(url, appName)` yielding its descriptor. -/
structure InngestFn where
  runFn : JVal → JVal → Except JSError (Bool × JVal)
  getConfig : MUrl → String → JVal

/-- `URL.href`: serialise the URL back to a string. -/
def MUrl.href (u : MUrl) : String :=
  u.scheme ++ "://" ++ u.host ++ u.pathname ++
    (if u.query.isEmpty then ""
     else "?" ++ String.intercalate "&" (u.query.map (fun kv => kv.1 ++ "=" ++ kv.2)))

/-- The error thrown by `zod`'s `.parse` when the run payload fails
validation. A `ZodError` is an `Error` instance; its issue text is an
implementation detail of the external `zod` library and is abstracted to a
fixed message (no claim depends on its wording). -/
def zodParseError : JSError := .errObj "ZodError: invalid run payload" none

/-- The `zod` validation in `runStep`:
`z.object({ event: z.object({}).passthrough(),
steps: z.object({}).passthrough().optional().nullable() }).parse(data)`.
The data must be an object carrying an `event` object; `steps` may be absent,
`null`, or an object; anything else throws. Returns the event's fields and
the raw parsed `steps` value. -/
def parseRunPayload (data : JVal) : Except JSError (List (String × JVal) × Option JVal) :=
  match data with
  | .jobj fs =>
    match lookupKey "event" fs with
    | some (.jobj efs) =>
      match lookupKey "steps" fs with
      | none => .ok (efs, none)
      | some .null => .ok (efs, some .null)
      | some (.jobj sfs) => .ok (efs, some (.jobj sfs))
      | some _ => .error zodParseError
    | _ => .error zodParseError
  | _ => .error zodParseError

/-- `steps || {}` applied to the parsed `steps` value: `undefined` and `null`
default to the empty object. -/
def stepsOrEmpty : Option JVal → JVal
  | some (.jobj sfs) => .jobj sfs
  | _ => .jobj []

/-- The body of `runStep`'s `try` block: look the function up (unknown id
throws `` `Could not find function with ID "${functionId}"` ``), validate the
payload, then call the engine with `{ event }` and `steps || {}`. -/
def runStepE (fns : List (String × InngestFn)) (functionId : String) (data : JVal) :
    Except JSError (Bool × JVal) :=
  match lookupKey functionId fns with
  | none =>
      .error (.errObj ("Could not find function with ID \"" ++ functionId ++ "\"") none)
  | some fn =>
    match parseRunPayload data with
    | .error e => .error e
    | .ok (efs, stepsRaw) => fn.runFn (.jobj [("event", .jobj efs)]) (stepsOrEmpty stepsRaw)

/-- `InngestCommHandler.runStep`: map the engine outcome `[isOp, body]` to
status 206 (pending operation) or 200 (completed); any caught exception
becomes a 500 carrying `err.stack || err.message` (or the unknown-error
text). The `stepId` parameter is accepted and unused, as in the source. -/
def runStep (fns : List (String × InngestFn)) (functionId stepId : String) (data : JVal) :
    StepRunResponse :=
  match runStepE fns functionId data with
  | .ok (true, body) => { status := 206, body := some body }
  | .ok (false, body) => { status := 200, body := some body }
  | .error e => { status := 500, error := some (jsErrorText e) }

/-! ### Environment snapshots and the signing key
(`InngestCommHandler.upsertSigningKeyFromEnv`, lines 494-498) -/

/-- An environment snapshot, `Record<string, string | undefined>`; a variable
mapped to `undefined` behaves exactly like an absent one under `env[k]`, so
both are modelled as absence from the list. -/
abbrev Env := List (String × String)

/-- Modelled from the spec: `envKeys.SigningKey` lives in
`helpers/consts.ts`, which is not under `src/`; the spec calls it "the
well-known signing-key variable name". -/
def signingKeyEnvVar : String := "INNGEST_SIGNING_KEY"

/-- Modelled from the spec: `envKeys.LandingPage` from `helpers/consts.ts`
(not under `src/`), the "landing-page-enabled variable". -/
def landingPageEnvVar : String := "INNGEST_LANDING_PAGE"

/-- Modelled from the spec: `envKeys.DevServerUrl` from `helpers/consts.ts`
(not under `src/`), the dev-server host hint variable. -/
def devServerUrlEnvVar : String := "INNGEST_DEVSERVER_URL"

/-- `upsertSigningKeyFromEnv`:
`if (!this.signingKey && env[envKeys.SigningKey]) this.signingKey = env[...]`.
Both conditions are JavaScript truthiness tests on `string | undefined`. -/
def upsertSigningKeyFromEnv (signingKey : Option String) (env : Env) : Option String :=
  if !strTruthy signingKey && strTruthy (lookupKey signingKeyEnvVar env) then
    lookupKey signingKeyEnvVar env
  else
    signingKey

/-- Modelled from the spec: `strBoolean` from `helpers/scalar.ts` is not
under `src/`; the spec describes "an environment opt-in flag", parsed from
the variable's string value when recognisable. -/
def strBoolean (s : Option String) : Option Bool :=
  if s = some "true" then some true
  else if s = some "false" then some false
  else none

/-- Modelled from the spec: the `landing` HTML from `src/landing` is "static
landing-page HTML content" owned by an external collaborator; its content is
opaque to the dispatcher. -/
def landingHtml : String := "<!DOCTYPE html><title>Inngest SDK landing page</title>"

/-- Modelled from the spec: `devServerUrl` from `helpers/devserver.ts` (not
under `src/`) resolves "the candidate dev-server origin (hint or a fixed
local default)" and yields its `href`. -/
def devServerUrlHref (hint : Option String) : String :=
  match hint with
  | some h => if h = "" then "http://localhost:8288/" else h
  | none => "http://localhost:8288/"

/-! ### Registration body (`InngestCommHandler.registerBody`, lines 406-420)
and the serve-URL resolution (`reqUrl`, lines 391-404) -/

/-- Modelled from the spec: `queryKeys.Introspect` from `helpers/consts.ts`
(not under `src/`), "the introspection query marker". -/
def introspectQueryKey : String := "introspect"

/-- The scheme+host base that `serveHost` supplies to
`new URL(pathname + search, serveHost)`; modelled structurally instead of
through URL-string parsing. -/
structure HostBase where
  scheme : String
  host : String

/-- The handler's construction-time configuration plus the outcomes of its
external collaborators: `sha256hex` is the digest from the external `hash.js`
library, and `registerOutcome` is the result of the registration protocol
`this.register(...)` (network I/O plus lenient response parsing, §4.2),
which the register branch awaits inside the dispatcher's `try` and which may
therefore also throw. -/
structure Config where
  frameworkName : String
  appName : String
  sdkVersion : String
  fns : List (String × InngestFn)
  showLandingPage : Option Bool
  servePath : Option String
  serveHost : Option HostBase
  sha256hex : String → String
  registerOutcome : Except JVal (Nat × String)

/-- The handler's cross-request mutable state: the signing key and the
production-mode flag (`_isProd`, set by the framework adapter before
dispatch). -/
structure CommState where
  signingKey : Option String
  isProd : Bool

/-- `reqUrl`: apply the `servePath` override, then the `serveHost` override
(which replaces scheme+host while keeping path and query), then delete the
introspection query marker. -/
def reqUrl (cfg : Config) (url : MUrl) : MUrl :=
  let r1 := match cfg.servePath with
    | some p => { url with pathname := p }
    | none => url
  let r2 : MUrl := match cfg.serveHost with
    | some h => { scheme := h.scheme, host := h.host
                  pathname := r1.pathname, query := r1.query }
    | none => r1
  { r2 with query := r2.query.filter (fun kv => kv.1 ≠ introspectQueryKey) }

/-- `RegisterRequest`: the registration body. `hash` is `none` until
computed, matching the field being absent (`undefined`) before line 418. -/
structure RegisterRequest where
  url : String
  deployType : String
  framework : String
  appName : String
  functions : List JVal
  sdk : String
  v : String
  hash : Option String

/-- The JSON fields of a `RegisterRequest` in insertion order;
`JSON.stringify` omits the `hash` key while it is still `undefined`. -/
def registerRequestFields (b : RegisterRequest) : List (String × JVal) :=
  [("url", .jstr b.url), ("deployType", .jstr b.deployType),
   ("framework", .jstr b.framework), ("appName", .jstr b.appName),
   ("functions", .jarr b.functions), ("sdk", .jstr b.sdk), ("v", .jstr b.v)] ++
    (match b.hash with
     | some h => [("hash", .jstr h)]
     | none => [])

/-- `JSON.stringify` of a registration body. -/
def registerRequestJson (b : RegisterRequest) : String :=
  jsonStringify (.jobj (registerRequestFields b))

/-- `configs`: every served function's descriptor, in insertion order
(`Object.values(this.fns).map(fn => fn.getConfig(url, this.name))`). -/
def configs (cfg : Config) (url : MUrl) : List JVal :=
  cfg.fns.map (fun kv => kv.2.getConfig url cfg.appName)

/-- `registerBody`: build the body without a hash, then set
`body.hash = sha256(JSON.stringify(body))` — the checksum is computed
"without the checksum itself being included". -/
def registerBody (cfg : Config) (url : MUrl) : RegisterRequest :=
  let body : RegisterRequest :=
    { url := url.href, deployType := "ping", framework := cfg.frameworkName
      appName := cfg.appName, functions := configs cfg url
      sdk := "js:v" ++ cfg.sdkVersion, v := "0.1", hash := none }
  { body with hash := some (cfg.sha256hex (registerRequestJson body)) }

/-- Recomputing a body's content hash the way `registerBody` computes it:
digest the JSON form with the hash field not yet set. -/
def recomputeHash (cfg : Config) (b : RegisterRequest) : String :=
  cfg.sha256hex (registerRequestJson { b with hash := none })

/-! ### The action dispatcher
(`InngestCommHandler.handleAction`, lines 210-318) -/

/-- The payload of a matched `run` action thunk (`HandlerAction`, `run`
variant, as the dispatcher consumes it). -/
structure RunAction where
  fnId : String
  data : JVal
  env : Env

/-- The payload of a matched `view` action thunk. -/
structure ViewAction where
  env : Env
  url : MUrl
  isIntrospection : Bool

/-- The payload of a matched `register` action thunk. -/
structure RegisterAction where
  env : Env
  url : MUrl

/-- The `error` variant of `HandlerAction`: carried error data (a
`Record<string, string>`), the environment snapshot and the URL. -/
structure ErrorAction where
  data : List (String × String)
  env : Env
  url : MUrl

/-- The classified-action record the framework adapter hands to
`handleAction` (the `Handler` return type): one thunk per matchable action,
each resolving to its payload, to `undefined` when the request is not that
action, or throwing. A thrown value is recorded as the `JVal` that
`JSON.stringify` observes in the dispatcher's catch block. -/
structure Actions where
  run : Except JVal (Option RunAction)
  view : Except JVal (Option ViewAction)
  register : Except JVal (Option RegisterAction)

/-- A wire-level response: `ActionResponse` from the source,
`{status, headers, body}`. -/
structure ActionResponse where
  status : Nat
  headers : List (String × String)
  body : String
deriving DecidableEq

/-- `this.sdkHeader.join("")`: the SDK-identification header value
`` `inngest-js:v${version} (${framework})` ``. -/
def sdkHeaderJoined (cfg : Config) : String :=
  "inngest-" ++ ("js:v" ++ cfg.sdkVersion) ++ (" (" ++ cfg.frameworkName ++ ")")

/-- `shouldShowLandingPage`:
`this.showLandingPage ?? strBoolean(strEnvVar) ?? true`. -/
def shouldShowLandingPage (cfg : Config) (strEnvVar : Option String) : Bool :=
  match cfg.showLandingPage with
  | some b => b
  | none => (strBoolean strEnvVar).getD true

/-- The introspection document: the registration body spread first, then
`devServerURL` and `hasSigningKey` (`Boolean(this.signingKey)` — presence of
a truthy key, never the key itself). -/
def introspectionBody (cfg : Config) (signingKey : Option String) (v : ViewAction) : JVal :=
  .jobj (registerRequestFields (registerBody cfg (reqUrl cfg v.url)) ++
    [("devServerURL", .jstr (devServerUrlHref (lookupKey devServerUrlEnvVar v.env))),
     ("hasSigningKey", .jbool (strTruthy signingKey))])

/-- The body of `handleAction`'s `try` block: probe `run`, then `view`, then
`register`; a thrown value (from a thunk or from the awaited registration
protocol) escapes to the catch together with the state mutations already
performed; all-thunks-`undefined` falls through to the final 405. -/
def dispatch (cfg : Config) (st : CommState) (acts : Actions) :
    Except (JVal × CommState) (ActionResponse × CommState) :=
  let headers := [("x-inngest-sdk", sdkHeaderJoined cfg)]
  match acts.run with
  | .error e => .error (e, st)
  | .ok (some runRes) =>
    let st1 : CommState :=
      { st with signingKey := upsertSigningKeyFromEnv st.signingKey runRes.env }
    let stepRes := runStep cfg.fns runRes.fnId "step" runRes.data
    if stepRes.status = 500 then
      .ok ({ status := 500, body := stepRes.error.getD ""
             headers := headers ++ [("Content-Type", "application/json")] }, st1)
    else
      .ok ({ status := stepRes.status
             body := jsonStringify (stepRes.body.getD .null)
             headers := headers ++ [("Content-Type", "application/json")] }, st1)
  | .ok none =>
    match acts.view with
    | .error e => .error (e, st)
    | .ok (some viewRes) =>
      let st1 : CommState :=
        { st with signingKey := upsertSigningKeyFromEnv st.signingKey viewRes.env }
      let showLanding := shouldShowLandingPage cfg (lookupKey landingPageEnvVar viewRes.env)
      if st1.isProd || !showLanding then
        .ok ({ status := 405, body := "", headers := headers }, st1)
      else if viewRes.isIntrospection then
        .ok ({ status := 200
               body := jsonStringify (introspectionBody cfg st1.signingKey viewRes)
               headers := headers ++ [("Content-Type", "application/json")] }, st1)
      else
        .ok ({ status := 200, body := landingHtml
               headers := headers ++ [("Content-Type", "text/html; charset=utf-8")] }, st1)
    | .ok none =>
      match acts.register with
      | .error e => .error (e, st)
      | .ok (some regRes) =>
        let st1 : CommState :=
          { st with signingKey := upsertSigningKeyFromEnv st.signingKey regRes.env }
        match cfg.registerOutcome with
        | .error e => .error (e, st1)
        | .ok (status, message) =>
          .ok ({ status := status
                 body := jsonStringify (.jobj [("message", .jstr message)])
                 headers := headers ++ [("Content-Type", "application/json")] }, st1)
      | .ok none =>
        .ok ({ status := 405, body := "", headers := headers }, st)

/-- `handleAction`: run the `try` body; any value thrown inside it is caught
and converted to a 500 whose body is the thrown value serialised as JSON,
with the SDK-identification header still attached. Always yields exactly one
response together with the post-request state. -/
def handleAction (cfg : Config) (st : CommState) (acts : Actions) :
    ActionResponse × CommState :=
  let headers := [("x-inngest-sdk", sdkHeaderJoined cfg)]
  match dispatch cfg st acts with
  | .ok r => r
  | .error (e, st') =>
    ({ status := 500, body := jsonStringify e
       headers := headers ++ [("Content-Type", "application/json")] }, st')

/-- Modelled from the spec: the framework adapter (`express.ts` serve logic,
not under `src/`) realises an `error`-classified request as an `Actions`
record whose thunks raise the action's carried error data, which the
dispatcher's catch then serialises (§4.1: "`error`: respond `500` with the
action's carried error data serialized to JSON"). -/
def actionsOfError (a : ErrorAction) : Actions :=
  let v : JVal := .jobj (a.data.map (fun kv => (kv.1, .jstr kv.2)))
  { run := .error v, view := .error v, register := .error v }

/-- Folding a sequence of dispatched actions over the handler state: the
state evolution of one comm-handler instance across many requests. -/
def runActions (cfg : Config) (st : CommState) (l : List Actions) : CommState :=
  l.foldl (fun s a => (handleAction cfg s a).2) st

/-! ### Error transport (`src/helpers/errors.ts`, lines 9-59) -/

/-- `SERIALIZED_KEY = "__serialized"`. -/
def SERIALIZED_KEY : String := "__serialized"

/-- `isSerializedError`: `Object.prototype.hasOwnProperty.call(value, key)`
and a strict-equality check of the stored value against `true`. On
non-objects the own-property check is false (or throws and is caught,
returning false). -/
def isSerializedError (value : JVal) : Bool :=
  match value with
  | .jobj fs =>
    match lookupKey SERIALIZED_KEY fs with
    | some (.jbool true) => true
    | _ => false
  | _ => false

/-- Assignment of one key in a JavaScript object: overwrite in place when the
key exists, else append. Object literals with a repeated key keep the first
position and the last value, which this models. -/
def setKey (l : List (String × JVal)) (k : String) (x : JVal) : List (String × JVal) :=
  match l with
  | [] => [(k, x)]
  | (k', x') :: rest => if k' = k then (k', x) :: rest else (k', x') :: setKey rest k x

/-- Build a JavaScript object from a literal's entry sequence (spread
entries first, computed key last), assigning left to right. -/
def objFromEntries (l : List (String × JVal)) : List (String × JVal) :=
  l.foldl (fun acc kv => setKey acc kv.1 kv.2) []

/-- `serializeError`: return an already-serialised value unchanged (detected
solely by `isSerializedError`'s marker check), else spread the external
`serialize-error-cjs` package's output (its enumerable own properties,
supplied as the function `cjs`) and attach `[SERIALIZED_KEY]: true`. -/
def serializeError (cjs : JVal → List (String × JVal)) (subject : JVal) : JVal :=
  if isSerializedError subject then subject
  else .jobj (objFromEntries (cjs subject ++ [(SERIALIZED_KEY, .jbool true)]))

/-! ### Concrete fixtures for witnesses and counterexamples -/

/-- A served function whose engine reports completion with `{ok: true}`. -/
def fnEcho : InngestFn :=
  { runFn := fun _ _ => .ok (false, .jobj [("ok", .jbool true)])
    getConfig := fun _ _ => .jobj [] }

/-- A served function whose engine throws `Error("boom")`. -/
def fnBoom : InngestFn :=
  { runFn := fun _ _ => .error (.errObj "boom" none)
    getConfig := fun _ _ => .jobj [] }

/-- A sample configuration serving `fnEcho` under the id `"app-fn"`. -/
def cfgEcho : Config :=
  { frameworkName := "test", appName := "app", sdkVersion := "0.0.0"
    fns := [("app-fn", fnEcho)], showLandingPage := none, servePath := none
    serveHost := none, sha256hex := fun s => s
    registerOutcome := .ok (200, "Successfully registered") }

/-- A sample configuration serving `fnBoom` under the id `"app-fn"`. -/
def cfgFault : Config :=
  { cfgEcho with fns := [("app-fn", fnBoom)] }

/-- A fresh handler state: no signing key, not production. -/
def stSample : CommState := { signingKey := none, isProd := false }

/-- A handler state with the production flag set. -/
def stProd : CommState := { signingKey := none, isProd := true }

/-- A sample request URL. -/
def urlSample : MUrl := { scheme := "https", host := "h", pathname := "/x", query := [] }

/-- A run action targeting `"app-fn"` with `{event: {}, steps: {}}`. -/
def runActEcho : RunAction :=
  { fnId := "app-fn", data := .jobj [("event", .jobj []), ("steps", .jobj [])], env := [] }

/-- A run action targeting `"app-fn"` whose payload has no `event` field. -/
def runActNoEvent : RunAction :=
  { fnId := "app-fn", data := .jobj [("steps", .jobj [])], env := [] }

/-- Classified actions: a run request carrying `runActEcho`. -/
def actsEcho : Actions :=
  { run := .ok (some runActEcho), view := .ok none, register := .ok none }

/-- Classified actions: a run request carrying `runActNoEvent`. -/
def actsNoEvent : Actions :=
  { run := .ok (some runActNoEvent), view := .ok none, register := .ok none }

/-- Classified actions: a view request asking for introspection. -/
def actsView : Actions :=
  { run := .ok none
    view := .ok (some { env := [], url := urlSample, isIntrospection := true })
    register := .ok none }

/-- Classified actions whose `run` thunk throws the string `"boom"`. -/
def actsThrow : Actions :=
  { run := .error (.jstr "boom"), view := .ok none, register := .ok none }

/-- A run action targeting the faulting function with a valid payload. -/
def runActFault : RunAction :=
  { fnId := "app-fn", data := .jobj [("event", .jobj [])], env := [] }

/-- Classified actions: a run request carrying `runActFault`. -/
def actsFault : Actions :=
  { run := .ok (some runActFault), view := .ok none, register := .ok none }

/-! ## Theorems -/

/-- Assigning a key makes it retrievable with that value. -/
theorem lookupKey_setKey_self (l : List (String × JVal)) (k : String) (x : JVal) :
    lookupKey k (setKey l k x) = some x := by
  induction l with
  | nil => simp [setKey, lookupKey]
  | cons hd tl ih =>
    obtain ⟨k', x'⟩ := hd
    by_cases h : k' = k
    · simp [setKey, h, lookupKey]
    · simp [setKey, h, lookupKey, ih]

/-- Building an object from entries ending in `(k, x)` ends with the
assignment of `k`. -/
theorem objFromEntries_append_single (l : List (String × JVal)) (k : String) (x : JVal) :
    objFromEntries (l ++ [(k, x)]) = setKey (objFromEntries l) k x := by
  simp [objFromEntries, List.foldl_append]

/-- Every value `serializeError` produces carries the marker. -/
theorem isSerializedError_serializeError (cjs : JVal → List (String × JVal)) (v : JVal) :
    isSerializedError (serializeError cjs v) = true := by
  by_cases h : isSerializedError v = true
  · rw [serializeError, if_pos h]; exact h
  · rw [serializeError, if_neg h, objFromEntries_append_single]
    simp [isSerializedError, lookupKey_setKey_self]

/-- C7: `serializeError` is idempotent — serialising twice equals serialising
once; a value already carrying the `__serialized: true` marker is returned
unchanged; and the already-serialised check is a function of the marker field
alone, not of the `name`/`message`/`stack` structure. Quantified over the
external `serialize-error-cjs` package's field extraction `cjs`. -/
theorem serializeError_idempotent (cjs : JVal → List (String × JVal)) :
    (∀ v, serializeError cjs (serializeError cjs v) = serializeError cjs v) ∧
    (∀ v, isSerializedError v = true → serializeError cjs v = v) ∧
    (∀ fs gs, lookupKey SERIALIZED_KEY fs = lookupKey SERIALIZED_KEY gs →
      isSerializedError (.jobj fs) = isSerializedError (.jobj gs)) := by
  refine ⟨fun v => ?_, fun v h => ?_, fun fs gs h => ?_⟩
  · rw [serializeError, if_pos (isSerializedError_serializeError cjs v)]
  · rw [serializeError, if_pos h]
  · simp only [isSerializedError, h]

/-- C7 witness: on a value already carrying the marker, `serializeError`
returns it unchanged, and the marker-only detection agrees on two objects
with the same marker field but different structure. -/
theorem serializeError_idempotent_witness :
    serializeError (fun _ => [("name", .jstr "Error"), ("message", .jstr "m")])
        (.jobj [(SERIALIZED_KEY, .jbool true), ("name", .jstr "x")]) =
      .jobj [(SERIALIZED_KEY, .jbool true), ("name", .jstr "x")] ∧
    isSerializedError (.jobj [(SERIALIZED_KEY, .jbool true), ("name", .jstr "a")]) =
      isSerializedError (.jobj [(SERIALIZED_KEY, .jbool true), ("stack", .jstr "b")]) := by
  have h := serializeError_idempotent
    (fun _ => [("name", .jstr "Error"), ("message", .jstr "m")])
  exact ⟨h.2.1 _ rfl, h.2.2 _ _ rfl⟩

/-- C8: the registration body's content hash is the digest of the body's
JSON form with the hash field not yet set, so it is a pure function of the
remaining fields: `registerBody` stamps exactly the recomputed hash of its
own output, changing a body's hash field never changes its recomputed hash,
and two bodies equal on all non-hash fields recompute the same hash. -/
theorem registerBody_hash_excludes_itself (cfg : Config) (url : MUrl) :
    ((registerBody cfg url).hash = some (recomputeHash cfg (registerBody cfg url))) ∧
    (∀ (b : RegisterRequest) (h : Option String),
      recomputeHash cfg { b with hash := h } = recomputeHash cfg b) ∧
    (∀ b b' : RegisterRequest, b.url = b'.url → b.deployType = b'.deployType →
      b.framework = b'.framework → b.appName = b'.appName →
      b.functions = b'.functions → b.sdk = b'.sdk → b.v = b'.v →
      recomputeHash cfg b = recomputeHash cfg b') := by
  refine ⟨rfl, fun b h => rfl, fun b b' h1 h2 h3 h4 h5 h6 h7 => ?_⟩
  have hb : ({ b with hash := none } : RegisterRequest) = { b' with hash := none } := by
    cases b; cases b'; simp_all
  rw [recomputeHash, recomputeHash, hb]

/-- C8 witness: a concrete registration body with its hash field replaced
recomputes to the same hash. -/
theorem registerBody_hash_excludes_itself_witness :
    recomputeHash
        { frameworkName := "test", appName := "app", sdkVersion := "0.0.0", fns := []
          showLandingPage := none, servePath := none, serveHost := none
          sha256hex := fun s => s, registerOutcome := .ok (200, "ok") }
        { url := "https://h/x", deployType := "ping", framework := "test"
          appName := "app", functions := [], sdk := "js:v0.0.0", v := "0.1"
          hash := some "tampered" } =
      recomputeHash
        { frameworkName := "test", appName := "app", sdkVersion := "0.0.0", fns := []
          showLandingPage := none, servePath := none, serveHost := none
          sha256hex := fun s => s, registerOutcome := .ok (200, "ok") }
        { url := "https://h/x", deployType := "ping", framework := "test"
          appName := "app", functions := [], sdk := "js:v0.0.0", v := "0.1"
          hash := none } := by
  exact (registerBody_hash_excludes_itself _
    { scheme := "https", host := "h", pathname := "/x", query := [] }).2.1
    { url := "https://h/x", deployType := "ping", framework := "test"
      appName := "app", functions := [], sdk := "js:v0.0.0", v := "0.1"
      hash := none } (some "tampered")

/-- C10: an environment snapshot mapping the signing-key variable to the
empty string does not cause adoption — the check tests JavaScript
truthiness, and the empty string is falsy, so the key stays unset. -/
theorem emptyString_signingKey_not_adopted (env : Env)
    (h : lookupKey signingKeyEnvVar env = some "") :
    upsertSigningKeyFromEnv none env = none := by
  simp [upsertSigningKeyFromEnv, h, strTruthy]

/-- C10 witness: the concrete snapshot `{INNGEST_SIGNING_KEY: ""}` leaves
the key unset. -/
theorem emptyString_signingKey_not_adopted_witness :
    upsertSigningKeyFromEnv none [("INNGEST_SIGNING_KEY", "")] = none :=
  emptyString_signingKey_not_adopted [("INNGEST_SIGNING_KEY", "")] rfl

/-- Adoption never changes a key that is already set to a non-empty value. -/
theorem upsert_preserves_set_key (k : String) (hne : k ≠ "") (env : Env) :
    upsertSigningKeyFromEnv (some k) env = some k := by
  simp [upsertSigningKeyFromEnv, strTruthy, hne]

/-- One dispatched action never changes a key already set to a non-empty
value: every branch of the dispatcher either keeps the state or passes it
through `upsertSigningKeyFromEnv`. -/
theorem handleAction_preserves_signingKey (cfg : Config) (st : CommState)
    (acts : Actions) (k : String) (hk : st.signingKey = some k) (hne : k ≠ "") :
    ((handleAction cfg st acts).2).signingKey = some k := by
  have hpres : ∀ env : Env, upsertSigningKeyFromEnv st.signingKey env = some k := by
    intro env
    rw [hk]
    exact upsert_preserves_set_key k hne env
  obtain ⟨run, view, reg⟩ := acts
  rcases run with e | orun
  · simpa [handleAction, dispatch] using hk
  · rcases orun with _ | r
    · rcases view with e | oview
      · simpa [handleAction, dispatch] using hk
      · rcases oview with _ | v
        · rcases reg with e | oreg
          · simpa [handleAction, dispatch] using hk
          · rcases oreg with _ | g
            · simpa [handleAction, dispatch] using hk
            · rcases hout : cfg.registerOutcome with e | sm
              · simpa [handleAction, dispatch, hout] using hpres g.env
              · obtain ⟨s, m⟩ := sm
                simpa [handleAction, dispatch, hout] using hpres g.env
        · by_cases hcond : ({ st with
              signingKey := upsertSigningKeyFromEnv st.signingKey v.env } : CommState).isProd
              || !shouldShowLandingPage cfg (lookupKey landingPageEnvVar v.env)
          · simpa [handleAction, dispatch, hcond] using hpres v.env
          · by_cases hintro : v.isIntrospection
            · simpa [handleAction, dispatch, hcond, hintro] using hpres v.env
            · simpa [handleAction, dispatch, hcond, hintro] using hpres v.env
    · by_cases h500 : (runStep cfg.fns r.fnId "step" r.data).status = 500
      · simpa [handleAction, dispatch, h500] using hpres r.env
      · simpa [handleAction, dispatch, h500] using hpres r.env

/-- C9: signing-key adoption is first-writer-wins. When no key is set,
adoption takes the environment's value exactly when it is truthy; a key
already set to a (non-empty) value is never overwritten by adoption; and
across any sequence of dispatched actions, a key set at the start (by
construction or an earlier request) retains its value. -/
theorem signingKey_first_writer_wins (cfg : Config) :
    (∀ env : Env, upsertSigningKeyFromEnv none env =
      (if strTruthy (lookupKey signingKeyEnvVar env) then
        lookupKey signingKeyEnvVar env else none)) ∧
    (∀ (k : String) (env : Env), k ≠ "" →
      upsertSigningKeyFromEnv (some k) env = some k) ∧
    (∀ (k : String) (st : CommState) (l : List Actions), st.signingKey = some k →
      k ≠ "" → (runActions cfg st l).signingKey = some k) := by
  refine ⟨fun env => ?_, fun k env hne => upsert_preserves_set_key k hne env,
    fun k st l => ?_⟩
  · simp [upsertSigningKeyFromEnv, strTruthy]
  · induction l generalizing st with
    | nil => intro h _; simpa [runActions] using h
    | cons a tl ih =>
      intro h hne
      have step := handleAction_preserves_signingKey cfg st a k h hne
      simpa [runActions] using ih _ step hne

/-- C9 witness: with a key already set to `"first"`, a request offering a
different key through its environment leaves the key unchanged. -/
theorem signingKey_first_writer_wins_witness :
    upsertSigningKeyFromEnv none [("INNGEST_SIGNING_KEY", "first")] =
      (if strTruthy (lookupKey signingKeyEnvVar [("INNGEST_SIGNING_KEY", "first")]) then
        lookupKey signingKeyEnvVar [("INNGEST_SIGNING_KEY", "first")] else none) ∧
    upsertSigningKeyFromEnv (some "first") [("INNGEST_SIGNING_KEY", "second")] = some "first" ∧
    (runActions
      { frameworkName := "test", appName := "app", sdkVersion := "0.0.0", fns := []
        showLandingPage := none, servePath := none, serveHost := none
        sha256hex := fun s => s, registerOutcome := .ok (200, "ok") }
      { signingKey := some "first", isProd := false }
      [{ run := .ok (some ⟨"f", .null, [("INNGEST_SIGNING_KEY", "second")]⟩),
         view := .ok none, register := .ok none }]).signingKey = some "first" := by
  have h := signingKey_first_writer_wins
    { frameworkName := "test", appName := "app", sdkVersion := "0.0.0", fns := []
      showLandingPage := none, servePath := none, serveHost := none
      sha256hex := fun s => s, registerOutcome := .ok (200, "ok") }
  refine ⟨h.1 _, h.2.1 "first" _ (by decide), h.2.2 "first" _ _ rfl (by decide)⟩

/-- C1: for every inbound action record — matched run, view or register,
falls through to the 405, or any thunk or awaited collaborator throwing —
`handleAction` yields exactly one response (it is a total function into
`ActionResponse`), every response carries the `x-inngest-sdk`
SDK-identification header, and any value thrown inside the dispatcher is
caught and converted to a status-500 response whose body is that value
serialised as JSON (still carrying the SDK header). -/
theorem handleAction_wellformed (cfg : Config) (st : CommState) (acts : Actions) :
    lookupKey "x-inngest-sdk" (handleAction cfg st acts).1.headers =
      some (sdkHeaderJoined cfg) ∧
    (∀ (e : JVal) (st' : CommState), dispatch cfg st acts = .error (e, st') →
      (handleAction cfg st acts).1 =
        { status := 500
          headers := [("x-inngest-sdk", sdkHeaderJoined cfg),
                      ("Content-Type", "application/json")]
          body := jsonStringify e }) := by
  constructor
  · obtain ⟨run, view, reg⟩ := acts
    rcases run with e | orun
    · simp [handleAction, dispatch, lookupKey]
    · rcases orun with _ | r
      · rcases view with e | oview
        · simp [handleAction, dispatch, lookupKey]
        · rcases oview with _ | v
          · rcases reg with e | oreg
            · simp [handleAction, dispatch, lookupKey]
            · rcases oreg with _ | g
              · simp [handleAction, dispatch, lookupKey]
              · rcases hout : cfg.registerOutcome with e | sm
                · simp [handleAction, dispatch, hout, lookupKey]
                · obtain ⟨s, m⟩ := sm
                  simp [handleAction, dispatch, hout, lookupKey]
          · by_cases hcond : ({ st with
                signingKey := upsertSigningKeyFromEnv st.signingKey v.env } : CommState).isProd
                || !shouldShowLandingPage cfg (lookupKey landingPageEnvVar v.env)
            · simp [handleAction, dispatch, hcond, lookupKey]
            · by_cases hintro : v.isIntrospection
              · simp [handleAction, dispatch, hcond, hintro, lookupKey]
              · simp [handleAction, dispatch, hcond, hintro, lookupKey]
      · by_cases h500 : (runStep cfg.fns r.fnId "step" r.data).status = 500
        · simp [handleAction, dispatch, h500, lookupKey]
        · simp [handleAction, dispatch, h500, lookupKey]
  · intro e st' h
    simp [handleAction, h]

/-- C1 witness: a `run` thunk throwing the string `"boom"` is caught and
becomes a 500 whose body is the JSON serialisation of the thrown value. -/
theorem handleAction_wellformed_witness :
    dispatch cfgEcho stSample actsThrow = .error (.jstr "boom", stSample) ∧
    (handleAction cfgEcho stSample actsThrow).1 =
      { status := 500
        headers := [("x-inngest-sdk", sdkHeaderJoined cfgEcho),
                    ("Content-Type", "application/json")]
        body := jsonStringify (.jstr "boom") } :=
  ⟨rfl, (handleAction_wellformed cfgEcho stSample actsThrow).2 (.jstr "boom") stSample rfl⟩

/-- C2: a run action naming a known function id with a valid payload maps
the engine outcome `[isOp, body]` to status 206 when `isOp` is true and 200
when it is false, with the JSON serialisation of `body` as response body. -/
theorem run_engine_outcome (cfg : Config) (st : CommState) (acts : Actions)
    (r : RunAction) (fn : InngestFn) (efs : List (String × JVal))
    (stepsRaw : Option JVal) (isOp : Bool) (body : JVal)
    (hrun : acts.run = .ok (some r))
    (hfn : lookupKey r.fnId cfg.fns = some fn)
    (hparse : parseRunPayload r.data = .ok (efs, stepsRaw))
    (hengine : fn.runFn (.jobj [("event", .jobj efs)]) (stepsOrEmpty stepsRaw) =
      .ok (isOp, body)) :
    (handleAction cfg st acts).1.status = (if isOp then 206 else 200) ∧
    (handleAction cfg st acts).1.body = jsonStringify body := by
  have hE : runStepE cfg.fns r.fnId r.data = .ok (isOp, body) := by
    simp only [runStepE, hfn, hparse, hengine]
  cases isOp
  · have hS : runStep cfg.fns r.fnId "step" r.data =
        { status := 200, body := some body } := by
      simp [runStep, hE]
    constructor <;> simp [handleAction, dispatch, hrun, hS]
  · have hS : runStep cfg.fns r.fnId "step" r.data =
        { status := 206, body := some body } := by
      simp [runStep, hE]
    constructor <;> simp [handleAction, dispatch, hrun, hS]

/-- C2 witness: `run` on the known id `"app-fn"` with `{event: {}, steps: {}}`
and an engine returning `[false, {ok: true}]` yields status 200 with body
`{"ok":true}`. -/
theorem run_engine_outcome_witness :
    (handleAction cfgEcho stSample actsEcho).1.status = 200 ∧
    (handleAction cfgEcho stSample actsEcho).1.body =
      jsonStringify (.jobj [("ok", .jbool true)]) := by
  have h := run_engine_outcome cfgEcho stSample actsEcho runActEcho fnEcho []
    (some (.jobj [])) false (.jobj [("ok", .jbool true)]) rfl rfl rfl rfl
  simpa using h

/-- C3: a run action whose raw payload carries no `event` field is a fault:
the response status is 500 and is neither 200 nor 206, so the malformed
payload is distinguishable from a legitimate run with empty steps. -/
theorem run_missing_event_500 (cfg : Config) (st : CommState) (acts : Actions)
    (r : RunAction) (fs : List (String × JVal))
    (hrun : acts.run = .ok (some r))
    (hdata : r.data = .jobj fs)
    (hev : lookupKey "event" fs = none) :
    (handleAction cfg st acts).1.status = 500 ∧
    (handleAction cfg st acts).1.status ≠ 200 ∧
    (handleAction cfg st acts).1.status ≠ 206 := by
  have hparse : parseRunPayload r.data = .error zodParseError := by
    simp [parseRunPayload, hdata, hev]
  have hS : (runStep cfg.fns r.fnId "step" r.data).status = 500 := by
    cases hfn : lookupKey r.fnId cfg.fns <;> simp [runStep, runStepE, hfn, hparse]
  have hmain : (handleAction cfg st acts).1.status = 500 := by
    simp [handleAction, dispatch, hrun, hS]
  exact ⟨hmain, by simp [hmain], by simp [hmain]⟩

/-- C3 witness: `run` with payload `{steps: {}}` (no `event`) against a
known function id responds 500, not 200 or 206. -/
theorem run_missing_event_500_witness :
    (handleAction cfgEcho stSample actsNoEvent).1.status = 500 ∧
    (handleAction cfgEcho stSample actsNoEvent).1.status ≠ 200 ∧
    (handleAction cfgEcho stSample actsNoEvent).1.status ≠ 206 :=
  run_missing_event_500 cfgEcho stSample actsNoEvent runActNoEvent
    [("steps", .jobj [])] rfl rfl rfl

/-- C4: a view action dispatched while the production-mode flag is set is
answered with exactly the 405 response with empty body — in particular, an
introspection request in production never receives the introspection
document. -/
theorem view_production_405 (cfg : Config) (st : CommState) (acts : Actions)
    (v : ViewAction)
    (hrun : acts.run = .ok none)
    (hview : acts.view = .ok (some v))
    (hprod : st.isProd = true) :
    (handleAction cfg st acts).1 =
      { status := 405, headers := [("x-inngest-sdk", sdkHeaderJoined cfg)]
        body := "" } := by
  simp [handleAction, dispatch, hrun, hview, hprod]

/-- C4 witness: an introspection view request in production mode gets the
bare 405. -/
theorem view_production_405_witness :
    (handleAction cfgEcho stProd actsView).1 =
      { status := 405, headers := [("x-inngest-sdk", sdkHeaderJoined cfgEcho)]
        body := "" } :=
  view_production_405 cfgEcho stProd actsView
    { env := [], url := urlSample, isIntrospection := true } rfl rfl rfl

/-- C5 counterexample: when the engine throws `Error("boom")`, the run
response has status 500 but its body is the bare fault text `"boom"`
(`stepRes.error || ""`), not the JSON object `{error: "boom"}` the claim
states. -/
theorem run_fault_body_not_error_object :
    (handleAction cfgFault stSample actsFault).1.status = 500 ∧
    (handleAction cfgFault stSample actsFault).1.body = "boom" ∧
    (handleAction cfgFault stSample actsFault).1.body ≠
      jsonStringify (.jobj [("error", .jstr "boom")]) := by
  have h1 : (handleAction cfgFault stSample actsFault).1.body = "boom" := rfl
  refine ⟨rfl, h1, ?_⟩
  rw [h1]
  decide

/-- C5 amended: for every run action in which the step invoker reports a
fault, the response has status 500 and its body is the fault's
message-or-stack text itself (the step result's error string), not a JSON
object wrapping it. -/
theorem run_fault_500_body_error_text (cfg : Config) (st : CommState)
    (acts : Actions) (r : RunAction) (e : JSError)
    (hrun : acts.run = .ok (some r))
    (hfault : runStepE cfg.fns r.fnId r.data = .error e) :
    (handleAction cfg st acts).1.status = 500 ∧
    (handleAction cfg st acts).1.body = jsErrorText e := by
  have hS : runStep cfg.fns r.fnId "step" r.data =
      { status := 500, error := some (jsErrorText e) } := by
    simp [runStep, hfault]
  constructor <;> simp [handleAction, dispatch, hrun, hS]

/-- C5 amended witness: the concrete engine exception `Error("boom")` yields
status 500 with body `"boom"`, the fault's message text. -/
theorem run_fault_500_body_error_text_witness :
    (handleAction cfgFault stSample actsFault).1.status = 500 ∧
    (handleAction cfgFault stSample actsFault).1.body =
      jsErrorText (.errObj "boom" none) :=
  run_fault_500_body_error_text cfgFault stSample actsFault runActFault
    (.errObj "boom" none) rfl rfl

/-- C6: an `error`-classified action is answered with status 500 and the
action's carried error data serialised to JSON as the body (the adapter
realisation of the `error` variant is modelled from the spec, since the
dispatcher consumes only run/view/register thunks and the adapter lives
outside `src/`). -/
theorem error_action_500 (cfg : Config) (st : CommState) (a : ErrorAction) :
    (handleAction cfg st (actionsOfError a)).1 =
      { status := 500
        headers := [("x-inngest-sdk", sdkHeaderJoined cfg),
                    ("Content-Type", "application/json")]
        body := jsonStringify (.jobj (a.data.map (fun kv => (kv.1, .jstr kv.2)))) } := by
  simp [handleAction, dispatch, actionsOfError]

end Inngest
